import Mathlib

/-!
Shallow embedding of the portfolio chatbot's retrieval and response-routing
engine, translated from `src/lambda/simple-rag.js` and `src/lambda/index.js`
(the current handler variant, lines 1-741 of `index.js`).

JavaScript strings are modelled as Lean `String` (a list of characters);
the JavaScript string methods and the concrete regular expressions used by
the code are implemented as executable functions over `List Char`.
`undefined`/missing string fields are modelled as the empty string, matching
the code's own `String(x || '')` coercions.
-/

namespace Chatbot

/-- Whitespace characters of the JavaScript regex class `\s` and of
`String.prototype.trim` (the ASCII fragment used by this code base). -/
def wsChar (c : Char) : Bool :=
  c = ' ' || c = '\t' || c = '\n' || c = '\r' || c = '\x0b' || c = '\x0c'

/-- JavaScript `toLowerCase` on the character ranges this code base uses:
ASCII letters and the Latin-1 accented capitals (plus Ÿ and Œ, which appear
in the accent class of `detectLanguage`). -/
def lowerCh (c : Char) : Char :=
  if 'A' ≤ c ∧ c ≤ 'Z' then Char.ofNat (c.toNat + 32)
  else if 'À' ≤ c ∧ c ≤ 'Þ' ∧ c ≠ '×' then Char.ofNat (c.toNat + 32)
  else if c = 'Ÿ' then 'ÿ'
  else if c = 'Œ' then 'œ'
  else c

/-- Lowercase a character list (JavaScript `toLowerCase`). -/
def lowerL (l : List Char) : List Char := l.map lowerCh

/-- Lowercase a string. -/
def lowerStr (s : String) : String := ⟨lowerL s.data⟩

/-- JavaScript `trim` on a character list. -/
def trimChars (l : List Char) : List Char :=
  ((l.dropWhile wsChar).reverse.dropWhile wsChar).reverse

/-- JavaScript `String.prototype.trim`. -/
def jsTrim (s : String) : String := ⟨trimChars s.data⟩

/-- Word characters of the JavaScript regex class `\w`: ASCII letters,
digits and underscore. -/
def wordCh (c : Char) : Bool := c.isAlpha || c.isDigit || c = '_'

/-- Substring containment (JavaScript `String.prototype.includes`). -/
def hasSub : List Char → List Char → Bool
  | needle, [] => needle.isEmpty
  | needle, l@(_ :: rest) => needle.isPrefixOf l || hasSub needle rest

/-- `hasSub` on strings. -/
def strHasSub (needle hay : String) : Bool := hasSub needle.data hay.data

/-- Case-insensitive prefix test: `pat` is given in lowercase and is compared
against the lowered characters of `l`. -/
def ciPrefix : List Char → List Char → Bool
  | [], _ => true
  | _ :: _, [] => false
  | p :: ps, c :: cs => p = lowerCh c && ciPrefix ps cs

/-- Case-insensitive substring search (`pat` in lowercase). -/
def ciHasSub : List Char → List Char → Bool
  | needle, [] => needle.isEmpty
  | needle, l@(_ :: rest) => ciPrefix needle l || ciHasSub needle rest

/-- Accumulator pass of the tokenizer: `cur` is the reversed current run of
word characters. -/
def tokenizeGo (cur : List Char) : List Char → List (List Char)
  | [] => if cur.isEmpty then [] else [cur.reverse]
  | c :: rest =>
    if wordCh c then tokenizeGo (c :: cur) rest
    else if cur.isEmpty then tokenizeGo [] rest
    else cur.reverse :: tokenizeGo [] rest

/-- Tokenizer of the external `natural` package's `WordTokenizer` (used by
`simple-rag.js`): maximal runs of word characters, empty pieces discarded.
For the ASCII inputs considered here the library's gap pattern
`[^A-Za-z0-9_]+` behaves exactly like splitting on non-`wordCh` runs. -/
def tokenizeL (l : List Char) : List (List Char) := tokenizeGo [] l

/-- Sentence-final punctuation used by the split pattern `(?<=[.!?])\s+`. -/
def sentPunct (c : Char) : Bool := c = '.' || c = '!' || c = '?'

/-- Helper for `splitSentsL`: does the list start with a whitespace char? -/
def headWs : List Char → Bool
  | [] => false
  | c :: _ => wsChar c

/-- Sentence split after the JavaScript regex `(?<=[.!?])\s+`: a separator is
a maximal whitespace run directly preceded by `.`, `!` or `?`; the
punctuation stays with the piece before the separator. A separator at the
very end leaves a trailing empty piece, as `split` does. `sep` is true
while the tail of a separator's whitespace run is being consumed (the
accumulator is empty then). -/
def splitSentsGo (sep : Bool) (acc : List Char) : List Char → List (List Char)
  | [] => [acc.reverse]
  | c :: rest =>
    if sep && wsChar c then splitSentsGo true acc rest
    else if sentPunct c && headWs rest then
      (acc.reverse ++ [c]) :: splitSentsGo true [] rest
    else splitSentsGo false (c :: acc) rest

/-- Sentence split of a character list. -/
def splitSentsL (l : List Char) : List (List Char) := splitSentsGo false [] l

/-- JavaScript `Array.prototype.join(sep)`. -/
def joinSep (sep : List Char) : List (List Char) → List Char
  | [] => []
  | [x] => x
  | x :: xs => x ++ sep ++ joinSep sep xs

/-- Split a character list on a separator character (JavaScript `split(c)`;
a trailing separator yields a trailing empty piece). -/
def splitOnChGo (sep : Char) (acc : List Char) : List Char → List (List Char)
  | [] => [acc.reverse]
  | c :: rest =>
    if c = sep then acc.reverse :: splitOnChGo sep [] rest
    else splitOnChGo sep (c :: acc) rest

/-- `splitOnChGo` from an empty accumulator. -/
def splitOnCh (sep : Char) (l : List Char) : List (List Char) := splitOnChGo sep [] l

/-! ## The lexical scorer: `getRelevantContext` from `src/lambda/simple-rag.js` -/

/-- A portfolio document (`{ title, content, source }`); missing fields are
the empty string, as in the code's `doc.content || ''` readings. -/
structure Doc where
  title : String
  content : String
  source : String
deriving DecidableEq, Repr

/-- The scorer's result record `{ context, sources }`. -/
structure RetrievalResult where
  context : String
  sources : List String
deriving DecidableEq, Repr

/-- The fixed greeting list of `getRelevantContext`. -/
def greetings : List String :=
  ["hello", "hi", "hey", "greetings", "bonjour", "salut", "hola", "hallo",
   "ciao", "yo", "good morning", "good afternoon", "good evening"]

/-- The scorer's keyword-hint list, verbatim ("learning" appears twice and
is therefore boosted twice, as in the source array). -/
def hints : List String :=
  ["certification", "certifications", "certificate", "certified", "ai", "ml",
   "machine", "learning", "deep", "learning", "project", "experience", "skill"]

/-- The sentinel context returned for greeting messages. -/
def greetingSentinel : String :=
  "This is a greeting. Respond with a warm, friendly welcome and offer to help with portfolio questions."

/-- The scorer's greeting short-circuit condition on the trimmed, lowered
message: equality with a greeting, a greeting followed by a space as a
prefix, or a space followed by a greeting as a suffix
(`msg === g || msg.startsWith(g + ' ') || msg.endsWith(' ' + g)`). -/
def greetingTrigger (userMessage : String) : Bool :=
  let m := trimChars (lowerL userMessage.data)
  greetings.any (fun g =>
    m = g.data || (g.data ++ [' ']).isPrefixOf m || (' ' :: g.data).isSuffixOf m)

/-- A scored document, transient output of the scoring map. The score is
kept in half-points: the source computes the float
`overlap + 0.5 * hint-count`, represented here as the natural number
`2 * overlap + hint-count` — an order-isomorphic encoding, so every
comparison (`score > 0`, the sort comparator, the 1.5 threshold of the
spec, which becomes 3 half-points) is preserved exactly. -/
structure SDoc where
  doc : Doc
  score : Nat
deriving DecidableEq, Repr

/-- One document's score in half-points: 2 per query token present in the
document's token set, plus 1 per hint keyword found in the lowered content
or title (substring test). -/
def docScore (questionTokens : List (List Char)) (d : Doc) : Nat :=
  let content := lowerL d.content.data
  let title := lowerL d.title.data
  let docTokens := tokenizeL (content ++ [' '] ++ title)
  let overlap := (questionTokens.filter (fun t => docTokens.contains t)).length
  let boosted := (hints.filter (fun h => hasSub h.data content || hasSub h.data title)).length
  2 * overlap + boosted

/-- Stable descending insertion by score: models the outcome of the stable
JavaScript `sort((a, b) => b.score - a.score)`. -/
def insDescScore (x : SDoc) : List SDoc → List SDoc
  | [] => [x]
  | y :: ys => if x.score < y.score then y :: insDescScore x ys else x :: y :: ys

/-- Stable descending sort by score. -/
def sortDescScore (l : List SDoc) : List SDoc := l.foldr insDescScore []

/-- The scorer's pre-fallback selection: score each document, keep positive
scores, stable descending sort, take the top 3 (`simple-rag.js` lines 28-42). -/
def scoredTop (userMessage : String) (portfolioDocs : List Doc) : List Doc :=
  let msg := trimChars (lowerL userMessage.data)
  let questionTokens := tokenizeL msg
  let scored := portfolioDocs.map (fun d => SDoc.mk d (docScore questionTokens d))
  let scored := sortDescScore (scored.filter (fun s => 0 < s.score))
  (scored.take 3).map (·.doc)

/-- The best (first) score, in half-points, of the scorer's filtered, sorted
list; 0 when no document scored positively. -/
def bestScore (userMessage : String) (portfolioDocs : List Doc) : Nat :=
  let msg := trimChars (lowerL userMessage.data)
  let questionTokens := tokenizeL msg
  match sortDescScore ((portfolioDocs.map
      (fun d => SDoc.mk d (docScore questionTokens d))).filter (fun s => 0 < s.score)) with
  | [] => 0
  | s :: _ => s.score

/-- The document set selected by the scorer: the pre-fallback top, or — when
that is empty and the message mentions `certif` — up to 3 documents whose
lowered content contains `certif` (`simple-rag.js` lines 44-48). -/
def selTop (userMessage : String) (portfolioDocs : List Doc) : List Doc :=
  let msg := trimChars (lowerL userMessage.data)
  if greetingTrigger userMessage then []
  else
    let top := scoredTop userMessage portfolioDocs
    if top.isEmpty && hasSub "certif".data msg then
      (portfolioDocs.filter (fun d => hasSub "certif".data (lowerL d.content.data))).take 3
    else top

/-- `getRelevantContext(userMessage, portfolioDocs)` from
`src/lambda/simple-rag.js`. The `Array.isArray` guard of the source cannot
fire here because the document set is a well-formed list by construction. -/
def getRelevantContext (userMessage : String) (portfolioDocs : List Doc) : RetrievalResult :=
  if greetingTrigger userMessage then
    ⟨greetingSentinel, []⟩
  else
    let msg := trimChars (lowerL userMessage.data)
    let questionTokens := tokenizeL msg
    let top := selTop userMessage portfolioDocs
    let want := questionTokens ++ hints.map (·.data)
    let pieces := top.map (fun d =>
      let sents := splitSentsL d.content.data
      let matched := sents.filter (fun s =>
        let lower := lowerL s
        want.any (fun w => hasSub w lower))
      if matched.isEmpty then d.content.data.take 400 else joinSep [' '] matched)
    let context := joinSep "\n---\n".data pieces
    let context := if context.length > 1500 then context.take 1500 else context
    let sources := (top.map (fun d => if d.source = "" then d.title else d.source)).filter
      (fun s => s ≠ "")
    ⟨⟨context⟩, sources⟩

/-! ## The handler's teaching pattern and the loader's deduplication
   (`src/lambda/index.js`) -/

/-- The alternatives of the teaching regex
`/(teach|instruct|train|mentor|lecture|workshop|course|class|university|academy)/i`
(line 506 of `index.js`); plain literals, so the case-insensitive test is a
substring search over the lowered text. -/
def teachSubs : List String :=
  ["teach", "instruct", "train", "mentor", "lecture", "workshop", "course",
   "class", "university", "academy"]

/-- Case-insensitive test of the teaching regex against a string. -/
def teachingText (s : String) : Bool :=
  teachSubs.any (fun w => hasSub w.data (lowerL s.data))

/-- The loader's deduplication key `title.trim() + '::' + content.slice(0,40)`
(`index.js` lines 196-208). -/
def dedupKey (d : Doc) : String :=
  jsTrim d.title ++ "::" ++ ⟨d.content.data.take 40⟩

/-- Deduplication pass of `loadPortfolioDocsFromS3`: walk the collected
documents in order, keep a document only when its key is unseen. -/
def dedupGo (seen : List String) : List Doc → List Doc
  | [] => []
  | d :: rest =>
    if dedupKey d ∈ seen then dedupGo seen rest
    else d :: dedupGo (dedupKey d :: seen) rest

/-- The deduplicated corpus of the loader (its final lines 196-208; the
earlier S3 reads only affect which raw documents are collected, which this
model takes as the input list). -/
def dedupDocs (docs : List Doc) : List Doc := dedupGo [] docs

/-! ## A small matcher for the handler's test regexes

The handler's intent predicates are `RegExp.test` calls. Each used pattern is
a sequence of literals, whitespace (`\s+`, `\s*`), word boundaries (`\b`),
character classes, optional groups and alternations; the matcher below
enumerates all ways a pattern element can consume input and tests whether a
full match exists anywhere in the string (unanchored, as `test` is).
Case-insensitive flags are modelled by lowering the input and writing the
patterns in lowercase. Nested groups of the source patterns are distributed
into top-level alternatives where needed (match-equivalent). -/

/-- A basic pattern element. -/
inductive BTok where
  | lit (s : String)
  | ws1
  | ws0
  | wb
  | cls1 (s : String)
  | clsOpt (s : String)
  | dotStar
  | wPlus
deriving Repr

/-- A pattern element: basic, an optional group, or an alternation of basic
sequences. -/
inductive Tok where
  | b (t : BTok)
  | optT (ts : List BTok)
  | altT (alts : List (List BTok))
deriving Repr

/-- Is the head of a list a word character? -/
def headWordCh : List Char → Bool
  | [] => false
  | c :: _ => wordCh c

/-- Wordness of an optional previous character (`\b` context; absent counts
as non-word). -/
def isWordOpt : Option Char → Bool
  | none => false
  | some c => wordCh c

/-- All states after consuming one or more `p`-characters (for `\s+`, `\w+`
and class repetitions). -/
def consumeRuns (p : Char → Bool) : Option Char → List Char → List (Option Char × List Char)
  | _, [] => []
  | _, c :: rest => if p c then (some c, rest) :: consumeRuns p (some c) rest else []

/-- All states after consuming zero or more non-newline characters (`.*`). -/
def dotConsume : Option Char → List Char → List (Option Char × List Char)
  | prev, [] => [(prev, [])]
  | prev, c :: rest =>
    (prev, c :: rest) :: (if c = '\n' then [] else dotConsume (some c) rest)

/-- All states reachable by one basic element from a state
`(previous character, remaining input)`. -/
def stepB : BTok → Option Char × List Char → List (Option Char × List Char)
  | .lit s, (prev, rest) =>
    if s.data.isPrefixOf rest then
      [(match s.data.getLast? with | some c => some c | none => prev, rest.drop s.length)]
    else []
  | .ws1, (prev, rest) => consumeRuns wsChar prev rest
  | .ws0, (prev, rest) => (prev, rest) :: consumeRuns wsChar prev rest
  | .wb, (prev, rest) => if isWordOpt prev ≠ headWordCh rest then [(prev, rest)] else []
  | .cls1 s, (_, rest) =>
    match rest with
    | c :: cs => if s.data.contains c then [(some c, cs)] else []
    | [] => []
  | .clsOpt s, (prev, rest) =>
    (prev, rest) ::
      (match rest with
       | c :: cs => if s.data.contains c then [(some c, cs)] else []
       | [] => [])
  | .dotStar, (prev, rest) => dotConsume prev rest
  | .wPlus, (prev, rest) => consumeRuns wordCh prev rest

/-- All states reachable by a basic sequence. -/
def stepBs (ts : List BTok) (st : Option Char × List Char) :
    List (Option Char × List Char) :=
  ts.foldl (fun sts t => sts.flatMap (stepB t)) [st]

/-- All states reachable by one pattern element. -/
def stepT : Tok → Option Char × List Char → List (Option Char × List Char)
  | .b t, st => stepB t st
  | .optT ts, st => st :: stepBs ts st
  | .altT alts, st => alts.flatMap (fun ts => stepBs ts st)

/-- All states reachable by a whole pattern sequence. -/
def runSeq (ts : List Tok) (st : Option Char × List Char) :
    List (Option Char × List Char) :=
  ts.foldl (fun sts t => sts.flatMap (stepT t)) [st]

/-- Does the sequence match starting exactly at the given state? -/
def matchesAt (seq : List Tok) (st : Option Char × List Char) : Bool :=
  !(runSeq seq st).isEmpty

/-- Does the sequence match anywhere at or after the given state? -/
def searchFrom (seq : List Tok) : Option Char → List Char → Bool
  | prev, [] => matchesAt seq (prev, [])
  | prev, c :: cs => matchesAt seq (prev, c :: cs) || searchFrom seq (some c) cs

/-- `RegExp.test` of an alternation of sequences against a string (the
caller passes the lowered string for `/i` patterns). -/
def reTest (alts : List (List Tok)) (s : String) : Bool :=
  alts.any (fun seq => searchFrom seq none s.data)

/-- Shorthand for a literal element. -/
def tL (s : String) : Tok := .b (.lit s)

/-- Shorthand for `\s+`. -/
def tW1 : Tok := .b .ws1

/-- Shorthand for `\b`. -/
def tWB : Tok := .b .wb

/-- Case-insensitive substring test of every word in a list (used for the
handler's plain-literal alternation regexes). -/
def anySubCi (ws : List String) (msg : String) : Bool :=
  ws.any (fun w => hasSub w.data (lowerL msg.data))

/-! ## The handler's intent predicates (`src/lambda/index.js`) -/

/-- Alternatives of the greeting regex
`/(hi|hello|hey|greetings|bonjour|salut|coucou)/i` (line 362). -/
def greetingWords : List String :=
  ["hi", "hello", "hey", "greetings", "bonjour", "salut", "coucou"]

/-- Alternatives of the question-word regex
`/(what|who|where|how|when|cert|skill|project)/i` (line 362). -/
def questionWords : List String :=
  ["what", "who", "where", "how", "when", "cert", "skill", "project"]

/-- `isGreeting` (line 362): a greeting token occurs and no question word
does (both as plain substrings, case-insensitively). -/
def isGreeting (msg : String) : Bool :=
  anySubCi greetingWords msg && !(anySubCi questionWords msg)

/-- The keyword alternation `(ai|assistant|chatbot|agent)`. -/
def agentKw : List (List BTok) :=
  [[.lit "ai"], [.lit "assistant"], [.lit "chatbot"], [.lit "agent"]]

/-- The agent-name regex (line 389):
`(what\s+is\s+)?(the\s+)?name\s+of\s+(the\s+)?(ai|assistant|chatbot|agent)\b`
`|\b(ai|assistant|chatbot|agent)\b.*\bname\b|\bwhat\s+is\s+your\s+name\b`. -/
def wantsAgentNameRe : List (List Tok) :=
  [[.optT [.lit "what", .ws1, .lit "is", .ws1], .optT [.lit "the", .ws1],
    tL "name", tW1, tL "of", tW1, .optT [.lit "the", .ws1], .altT agentKw, tWB],
   [tWB, .altT agentKw, tWB, .b .dotStar, tWB, tL "name", tWB],
   [tWB, tL "what", tW1, tL "is", tW1, tL "your", tW1, tL "name", tWB]]

/-- `wantsAgentName` (line 389). -/
def wantsAgentName (msg : String) : Bool := reTest wantsAgentNameRe (lowerStr msg)

/-- The about regex (line 408), inner groups distributed:
`(tell\s+me\s+about\s+(ousseini|you|the\s+(owner|author))`
`|who\s+is\s+(ousseini|the\s+owner|the\s+author)|about\s+(ousseini|you))`. -/
def wantsAboutRe : List (List Tok) :=
  [[tL "tell", tW1, tL "me", tW1, tL "about", tW1,
    .altT [[.lit "ousseini"], [.lit "you"], [.lit "the", .ws1, .lit "owner"],
           [.lit "the", .ws1, .lit "author"]]],
   [tL "who", tW1, tL "is", tW1,
    .altT [[.lit "ousseini"], [.lit "the", .ws1, .lit "owner"],
           [.lit "the", .ws1, .lit "author"]]],
   [tL "about", tW1, .altT [[.lit "ousseini"], [.lit "you"]]]]

/-- `wantsAbout` (line 408). -/
def wantsAbout (msg : String) : Bool := reTest wantsAboutRe (lowerStr msg)

/-- `\b(ai|artificial intelligence)\b` (line 437). -/
def aiWordRe : List (List Tok) :=
  [[tWB, tL "ai", tWB], [tWB, tL "artificial intelligence", tWB]]

/-- `\b(cert|certif|certificate|certification)s?\b` (line 437). -/
def certWordRe : List (List Tok) :=
  [[tWB, .altT [[.lit "cert"], [.lit "certif"], [.lit "certificate"], [.lit "certification"]],
    .b (.clsOpt "s"), tWB]]

/-- `wantsAICerts` (line 437). -/
def wantsAICerts (msg : String) : Bool :=
  reTest aiWordRe (lowerStr msg) && reTest certWordRe (lowerStr msg)

/-- `(\bAI\b|artificial intelligence|machine learning|generative AI)/i`
tested against a certification document's title and content (line 444). -/
def aiTermRe : List (List Tok) :=
  [[tWB, tL "ai", tWB], [tL "artificial intelligence"], [tL "machine learning"],
   [tL "generative ai"]]

/-- `\bcertification(s)?\b` (line 468). -/
def wantsCertsRe : List (List Tok) :=
  [[tWB, tL "certification", .b (.clsOpt "s"), tWB]]

/-- `wantsCerts` (line 468). -/
def wantsCerts (msg : String) : Bool := reTest wantsCertsRe (lowerStr msg)

/-- First contact regex (line 492):
`(\bcontact\b|reach\s+(?:him|out)|get\s+in\s+touch|email|hire|pricing|rate`
`|availability|collaborat(?:e|ion)|book|schedule)`. -/
def wantsContactRe1 : List (List Tok) :=
  [[tWB, tL "contact", tWB],
   [tL "reach", tW1, .altT [[.lit "him"], [.lit "out"]]],
   [tL "get", tW1, tL "in", tW1, tL "touch"],
   [tL "email"], [tL "hire"], [tL "pricing"], [tL "rate"], [tL "availability"],
   [tL "collaborat", .altT [[.lit "e"], [.lit "ion"]]],
   [tL "book"], [tL "schedule"]]

/-- Second contact regex (line 493):
`(contacter|prix|tarif|tarifs|disponibilit\w+|collaborer|embaucher)`. -/
def wantsContactRe2 : List (List Tok) :=
  [[tL "contacter"], [tL "prix"], [tL "tarif"], [tL "tarifs"],
   [tL "disponibilit", .b .wPlus], [tL "collaborer"], [tL "embaucher"]]

/-- `wantsContact` (lines 492-493). -/
def wantsContact (msg : String) : Bool :=
  reTest wantsContactRe1 (lowerStr msg) || reTest wantsContactRe2 (lowerStr msg)

/-- `wantsTeaching` (lines 506-507): the teaching regex on the message. -/
def wantsTeaching (msg : String) : Bool := teachingText msg

/-- The skills regex (line 529):
`(\bskills?\b|\bskillset\b|\bstack\b|technolog(?:y|ies)|tooling`
`|\btech\s*stack\b|compétence|competence|compétences|competences)`. -/
def wantsSkillsRe : List (List Tok) :=
  [[tWB, tL "skill", .b (.clsOpt "s"), tWB],
   [tWB, tL "skillset", tWB],
   [tWB, tL "stack", tWB],
   [tL "technolog", .altT [[.lit "y"], [.lit "ies"]]],
   [tL "tooling"],
   [tWB, tL "tech", .b .ws0, tL "stack", tWB],
   [tL "compétence"], [tL "competence"], [tL "compétences"], [tL "competences"]]

/-- `wantsSkills` (line 529). -/
def wantsSkills (msg : String) : Bool := reTest wantsSkillsRe (lowerStr msg)

/-- `(\bai\b|artificial intelligence)` (line 560). -/
def aiLooseRe : List (List Tok) := [[tWB, tL "ai", tWB], [tL "artificial intelligence"]]

/-- Alternatives of `(project|work|built|done|experience)` (line 560). -/
def projectWords : List String := ["project", "work", "built", "done", "experience"]

/-- `wantsAIProjects` (line 560). -/
def wantsAIProjects (msg : String) : Bool :=
  reTest aiLooseRe (lowerStr msg) && anySubCi projectWords msg

/-- First-person bio-cue regex `\b(i am|cloud|ai|consultant|experience|skills)\b`
(line 414). -/
def bioCueRe : List (List Tok) :=
  [[tWB, tL "i am", tWB], [tWB, tL "cloud", tWB], [tWB, tL "ai", tWB],
   [tWB, tL "consultant", tWB], [tWB, tL "experience", tWB], [tWB, tL "skills", tWB]]

/-! ## Language detection (`detectLanguage`, lines 106-122) -/

/-- `\b(bonjour|salut|fran[cç]ais)\b`, tested on the already-lowered
message. -/
def frWordRe : List (List Tok) :=
  [[tWB, tL "bonjour", tWB], [tWB, tL "salut", tWB],
   [tWB, tL "fran", .b (.cls1 "cç"), tL "ais", tWB]]

/-- The French hint substrings of `detectLanguage`, verbatim. -/
def frHints : List String :=
  ["bonjour", "salut", "merci", "s'il", "s’il", "svp", "comment", "vous", "tu",
   "êtes", "etre", "est-ce", "quel", "quelle", "quels", "quelles", "où",
   "pourquoi", "parlez", "français", "francais", "tarif", "tarifs", "prix",
   "disponibilité", "disponibilite", "projet", "projets", "compétence",
   "competence", "certification", "collaborer", "embaucher", "contacter",
   "contacte", "aide"]

/-- The accent class `[àâçéèêëîïôùûüÿœæ]` (the `/i` flag is covered by
lowering the message first). -/
def accentChars : String := "àâçéèêëîïôùûüÿœæ"

/-- `detectLanguage(userMessage)`: quick French for greeting words or
`français`; otherwise two or more points from hint substrings (1 each) and
accented characters (1 total) mean French. -/
def detectLanguage (userMessage : String) : String :=
  let msg := lowerL userMessage.data
  if msg.isEmpty then "en"
  else if reTest frWordRe ⟨msg⟩ then "fr"
  else
    let hasAccents := msg.any (fun c => accentChars.data.contains c)
    let score := (frHints.filter (fun h => hasSub h.data msg)).length +
      (if hasAccents then 1 else 0)
    if score ≥ 2 then "fr" else "en"

/-- `shouldUseRag(userMessage, settings)` (lines 50-54). -/
def shouldUseRag (userMessage : String) (topics : List String) : Bool :=
  let msg := lowerL userMessage.data
  topics.any (fun t => t ≠ "" && hasSub (lowerL t.data) msg)

/-- The default `ragTriggerTopics` of `getBotSettings` (lines 44-47). -/
def defaultRagTopics : List String :=
  ["experience", "experiences", "management", "leadership", "crypto",
   "cryptocurrency", "blockchain", "teaching", "mentor", "mentoring",
   "business", "administration", "business administration"]

/-! ## Markdown stripping (`stripMarkdown`, lines 74-96) -/

/-- Split a list at the first occurrence of `pat`, returning the part before
and the part after the occurrence. -/
def splitAtSubGo (pat : List Char) (acc : List Char) :
    List Char → Option (List Char × List Char)
  | [] => none
  | c :: rest =>
    if pat.isPrefixOf (c :: rest) then some (acc.reverse, (c :: rest).drop pat.length)
    else splitAtSubGo pat (c :: acc) rest

/-- `splitAtSubGo` from an empty accumulator (patterns here are nonempty). -/
def splitAtSub (pat l : List Char) : Option (List Char × List Char) :=
  splitAtSubGo pat [] l

/-- Like `splitAtSub` but failing at a newline (for `.` patterns, which do
not cross lines). -/
def splitAtSubNoNlGo (pat : List Char) (acc : List Char) :
    List Char → Option (List Char × List Char)
  | [] => none
  | c :: rest =>
    if pat.isPrefixOf (c :: rest) then some (acc.reverse, (c :: rest).drop pat.length)
    else if c = '\n' then none
    else splitAtSubNoNlGo pat (c :: acc) rest

/-- `splitAtSubNoNlGo` from an empty accumulator. -/
def splitAtSubNoNl (pat l : List Char) : Option (List Char × List Char) :=
  splitAtSubNoNlGo pat [] l

/-- Remove fenced code blocks: each ``` ``` ``` pair and everything between is
replaced by `repl` (lazy matching, unclosed fences stay). The fuel is the
input length, which bounds the number of blocks. -/
def removeFenced (repl : List Char) : Nat → List Char → List Char
  | 0, l => l
  | fuel + 1, l =>
    match splitAtSub "```".data l with
    | none => l
    | some (before, after) =>
      match splitAtSub "```".data after with
      | none => l
      | some (_, rest) => before ++ repl ++ removeFenced repl fuel rest

/-- Inline code: `` `x` `` keeps `x` (the regex `([^`]+)` needs a nonempty
inside; an unpaired or empty pair of backticks stays). -/
def inlineCode : Nat → List Char → List Char
  | 0, l => l
  | _, [] => []
  | fuel + 1, c :: rest =>
    if c = Char.ofNat 96 then
      match splitAtSub [Char.ofNat 96] rest with
      | some (inner, after) =>
        if inner.isEmpty then c :: inlineCode fuel rest
        else inner ++ inlineCode fuel after
      | none => c :: rest
    else c :: inlineCode fuel rest

/-- Apply a line transformation to every `\n`-separated line. -/
def mapLines (f : List Char → List Char) (l : List Char) : List Char :=
  joinSep ['\n'] ((splitOnCh '\n' l).map f)

/-- Is a character a space or tab (the classes `[ \t]` and `[\t ]`)? -/
def spaceTab (c : Char) : Bool := c = ' ' || c = '\t'

/-- Does a line match the heading pattern `^[ \t]*#{1,6}\s+.*$`? -/
def headingLine (ln : List Char) : Bool :=
  let r := ln.dropWhile spaceTab
  let hashes := r.takeWhile (fun c => c = '#')
  1 ≤ hashes.length && hashes.length ≤ 6 && headWs (r.dropWhile (fun c => c = '#'))

/-- Blockquote replacement `^>\s?` per line. -/
def bqLine (ln : List Char) : List Char :=
  match ln with
  | '>' :: rest =>
    match rest with
    | c :: cs => if wsChar c then cs else rest
    | [] => []
  | _ => ln

/-- List-marker replacement `^[\t ]*(?:[-*+]|\d+\.)\s+` per line. -/
def listLine (ln : List Char) : List Char :=
  let r := ln.dropWhile spaceTab
  match r with
  | c :: rest =>
    if (c = '-' || c = '*' || c = '+') && headWs rest then rest.dropWhile wsChar
    else if c.isDigit then
      match (c :: rest).dropWhile Char.isDigit with
      | '.' :: r3 => if headWs r3 then r3.dropWhile wsChar else ln
      | _ => ln
    else ln
  | [] => ln

/-- First emphasis pass `(\*\*|__)(.*?)\1`: the opener's closer must be the
same marker, with no newline between (the `.` class), lazily matched; the
scan continues after each replacement. -/
def pairPass1 : Nat → List Char → List Char
  | 0, l => l
  | _, [] => []
  | fuel + 1, c :: rest =>
    if "**".data.isPrefixOf (c :: rest) then
      match splitAtSubNoNl "**".data ((c :: rest).drop 2) with
      | some (inner, after) => inner ++ pairPass1 fuel after
      | none => c :: pairPass1 fuel rest
    else if "__".data.isPrefixOf (c :: rest) then
      match splitAtSubNoNl "__".data ((c :: rest).drop 2) with
      | some (inner, after) => inner ++ pairPass1 fuel after
      | none => c :: pairPass1 fuel rest
    else c :: pairPass1 fuel rest

/-- Second emphasis pass `(\*|_)(.*?)\1`. -/
def pairPass2 : Nat → List Char → List Char
  | 0, l => l
  | _, [] => []
  | fuel + 1, c :: rest =>
    if c = '*' || c = '_' then
      match splitAtSubNoNl [c] rest with
      | some (inner, after) => inner ++ pairPass2 fuel after
      | none => c :: pairPass2 fuel rest
    else c :: pairPass2 fuel rest

/-- Horizontal-rule replacement `^(?:-{3,}|\*{3,}|_{3,})$` per line. -/
def hrLine (ln : List Char) : List Char :=
  if 3 ≤ ln.length && (ln.all (· = '-') || ln.all (· = '*') || ln.all (· = '_')) then []
  else ln

/-- `stripMarkdown(s)` (lines 74-96): fences to a space, inline code
unwrapped, headings to a space, blockquote and list markers dropped,
paired emphasis markers dropped, horizontal rules dropped, pipes to
spaces, carriage returns to spaces, then lines trimmed, empties dropped
and the rest joined by single spaces and trimmed. -/
def stripMarkdown (s : String) : String :=
  let t := s.data
  let t := removeFenced [' '] t.length t
  let t := inlineCode t.length t
  let t := mapLines (fun ln => if headingLine ln then [' '] else ln) t
  let t := mapLines bqLine t
  let t := mapLines listLine t
  let t := pairPass1 t.length t
  let t := pairPass2 t.length t
  let t := mapLines hrLine t
  let t := t.map (fun c => if c = '|' then ' ' else c)
  let t := t.map (fun c => if c = '\r' then ' ' else c)
  let lines := ((splitOnCh '\n' t).map trimChars).filter (fun ln => !ln.isEmpty)
  ⟨trimChars (joinSep [' '] lines)⟩

/-- `ensureSentenceEnds(text)` (lines 98-103): empty text stays; otherwise
trim and append a period unless the text already ends in `.`, `!` or `?`. -/
def ensureSentenceEnds (text : String) : String :=
  if text = "" then text
  else
    let t := trimChars text.data
    match t.getLast? with
    | some c => if sentPunct c then ⟨t⟩ else ⟨t ++ ['.']⟩
    | none => ⟨t ++ ['.']⟩

/-! ## The response sanitizer (`index.js` lines 662-725) -/

/-- The trailing-marker characters of `/["'`]+$/`. -/
def quoteMarks : String := "\"'`"

/-- Drop a trailing run of quote/backtick markers (`/["'`]+$/` → ``). -/
def dropTrailingQuotes (l : List Char) : List Char :=
  (l.reverse.dropWhile (fun c => quoteMarks.data.contains c)).reverse

/-- `cleanOutput(text)` (lines 663-679): drop fenced code blocks, strip
markdown, keep the first two trimmed nonempty sentences, drop trailing
quote markers, trim, and ensure terminal punctuation. -/
def cleanOutput (text : String) : String :=
  let t := removeFenced [] text.data.length text.data
  let t := stripMarkdown ⟨t⟩
  let sentences := ((splitSentsL t.data).map trimChars).filter (fun s => !s.isEmpty)
  let result := joinSep [' '] (sentences.take 2)
  ensureSentenceEnds ⟨trimChars (dropTrailingQuotes result)⟩

/-- Remove every case-insensitive, word-bounded occurrence of `pat` (given
lowercase, with word characters at both edges), tracking the preceding
character for the left boundary; the scan continues after each removal, as
a global `replace` does. -/
def removePhraseWb (pat : List Char) : Nat → Option Char → List Char → List Char
  | 0, _, l => l
  | _, _, [] => []
  | fuel + 1, prev, c :: rest =>
    if !isWordOpt prev && ciPrefix pat (c :: rest) &&
        !headWordCh ((c :: rest).drop pat.length) then
      removePhraseWb pat fuel ((c :: rest).take pat.length).getLast?
        ((c :: rest).drop pat.length)
    else c :: removePhraseWb pat fuel (some c) rest

/-- `\baccording to (the )?provided context\b` (global, case-insensitive;
the optional group is tried greedily first). -/
def removeAccordingProvided : Nat → Option Char → List Char → List Char
  | 0, _, l => l
  | _, _, [] => []
  | fuel + 1, prev, c :: rest =>
    let patLong := "according to the provided context".data
    let patShort := "according to provided context".data
    if !isWordOpt prev && ciPrefix patLong (c :: rest) &&
        !headWordCh ((c :: rest).drop patLong.length) then
      removeAccordingProvided fuel ((c :: rest).take patLong.length).getLast?
        ((c :: rest).drop patLong.length)
    else if !isWordOpt prev && ciPrefix patShort (c :: rest) &&
        !headWordCh ((c :: rest).drop patShort.length) then
      removeAccordingProvided fuel ((c :: rest).take patShort.length).getLast?
        ((c :: rest).drop patShort.length)
    else c :: removeAccordingProvided fuel (some c) rest

/-- Note-line removal `^\s*note\s*[:\-—].*$` (gim) per line. (With the `m`
flag the leading `\s*` of the source pattern could additionally swallow
preceding all-whitespace lines; the texts this sanitizer receives are
single-line, where both readings agree.) -/
def noteLine (ln : List Char) : List Char :=
  let r := ln.dropWhile wsChar
  if ciPrefix "note".data r then
    match (r.drop 4).dropWhile wsChar with
    | c :: _ => if c = ':' || c = '-' || c = '—' then [] else ln
    | [] => ln
  else ln

/-- `\(\s*no source url is provided\s*\)` (global, case-insensitive). -/
def removeNoSourceUrl : Nat → List Char → List Char
  | 0, l => l
  | _, [] => []
  | fuel + 1, c :: rest =>
    if c = '(' then
      let r := rest.dropWhile wsChar
      if ciPrefix "no source url is provided".data r then
        match (r.drop 25).dropWhile wsChar with
        | ')' :: r3 => removeNoSourceUrl fuel r3
        | _ => c :: removeNoSourceUrl fuel rest
      else c :: removeNoSourceUrl fuel rest
    else c :: removeNoSourceUrl fuel rest

/-- `(?:Is this response|Est-ce que cette réponse)[^.?!]*[?]` (global,
case-insensitive): after the literal, the run up to the next sentence
punctuation must end at a `?` for the match to hold. -/
def removeSelfAssess : Nat → List Char → List Char
  | 0, l => l
  | _, [] => []
  | fuel + 1, c :: rest =>
    let p1 := "is this response".data
    let p2 := "est-ce que cette réponse".data
    let afterLit :=
      if ciPrefix p1 (c :: rest) then some ((c :: rest).drop p1.length)
      else if ciPrefix p2 (c :: rest) then some ((c :: rest).drop p2.length)
      else none
    match afterLit with
    | some after =>
      match after.dropWhile (fun c => !sentPunct c) with
      | '?' :: r3 => removeSelfAssess fuel r3
      | _ => c :: removeSelfAssess fuel rest
    | none => c :: removeSelfAssess fuel rest

/-- Remove every case-insensitive occurrence of a plain literal. -/
def removeCiSub (pat : List Char) : Nat → List Char → List Char
  | 0, l => l
  | _, [] => []
  | fuel + 1, c :: rest =>
    if ciPrefix pat (c :: rest) then removeCiSub pat fuel ((c :: rest).drop pat.length)
    else c :: removeCiSub pat fuel rest

/-- `Respecte(?:[- ]|)t-il les consignes[?]` (global, case-insensitive). -/
def removeRespecte : Nat → List Char → List Char
  | 0, l => l
  | _, [] => []
  | fuel + 1, c :: rest =>
    let tail := "t-il les consignes?".data
    if ciPrefix "respecte".data (c :: rest) then
      let r := (c :: rest).drop 8
      let afterOpt :=
        match r with
        | c2 :: r2 =>
          if (c2 = '-' || c2 = ' ') && ciPrefix tail r2 then some (r2.drop tail.length)
          else if ciPrefix tail r then some (r.drop tail.length) else none
        | [] => none
      match afterOpt with
      | some after => removeRespecte fuel after
      | none => c :: removeRespecte fuel rest
    else c :: removeRespecte fuel rest

/-- Collapse every whitespace run to a single space (`/\s+/g` → `' '`). -/
def collapseWsGo (prevWs : Bool) : List Char → List Char
  | [] => []
  | c :: rest =>
    if wsChar c then
      if prevWs then collapseWsGo true rest else ' ' :: collapseWsGo true rest
    else c :: collapseWsGo false rest

/-- `collapseWsGo` from a non-whitespace state. -/
def collapseWs (l : List Char) : List Char := collapseWsGo false l

/-- `sanitizeMeta(text)` (lines 683-696). -/
def sanitizeMeta (text : String) : String :=
  if text = "" then text
  else
    let t := text.data
    let t := removePhraseWb "according to the context".data t.length none t
    let t := removeAccordingProvided t.length none t
    let t := mapLines noteLine t
    let t := removeNoSourceUrl t.length t
    let t := removeSelfAssess t.length t
    let t := removeCiSub "does it follow the guidelines?".data t.length t
    let t := removeRespecte t.length t
    ⟨trimChars (collapseWs t)⟩

/-- Length of the leading run of `s`/`S` characters. -/
def sCount (l : List Char) : Nat := (l.takeWhile (fun c => c = 's' || c = 'S')).length

/-- Greedy-with-backtracking search for the lowered question `ql` after a
run of at most `j` `s` characters; returns the remainder after the
question. -/
def findSrunMatch (ql : List Char) (l0 : List Char) : Nat → Option (List Char)
  | 0 => if ciPrefix ql l0 then some (l0.drop ql.length) else none
  | j + 1 =>
    if ciPrefix ql (l0.drop (j + 1)) then some (l0.drop (j + 1 + ql.length))
    else findSrunMatch ql l0 j

/-- The tail of the echo pattern after the question: `\s*`, a run of
`[-:–—]`, an optional newline, a run of `s` (see `stripEcho` for why the
pattern reads this way). -/
def echoTail (r : List Char) : List Char :=
  let r := r.dropWhile wsChar
  let r := r.dropWhile (fun c => c = '-' || c = ':' || c = '–' || c = '—')
  let r := match r with | '\n' :: rr => rr | _ => r
  r.dropWhile (fun c => c = 's' || c = 'S')

/-- `^(you\s+asked|vous\s+avez\s+demandé|vous\s+avez\s+demande)[:,\-–—]?\s*`:
match a word sequence separated by `\s+` at the start. -/
def matchSeqWs : List (List Char) → List Char → Option (List Char)
  | [], l => some l
  | [w], l => if ciPrefix w l then some (l.drop w.length) else none
  | w :: w2 :: ws, l =>
    if ciPrefix w l then
      let r := l.drop w.length
      let r2 := r.dropWhile wsChar
      if r2.length < r.length then matchSeqWs (w2 :: ws) r2 else none
    else none

/-- Is the character one of the lead-in separators `[:,\-–—]`? -/
def leadSep (c : Char) : Bool := c = ':' || c = ',' || c = '-' || c = '–' || c = '—'

/-- The `you asked` / `vous avez demandé` lead-in strip (then `trim`). -/
def leadInA (l : List Char) : List Char :=
  let afterAlt :=
    match matchSeqWs ["you".data, "asked".data] l with
    | some r => some r
    | none =>
      match matchSeqWs ["vous".data, "avez".data, "demandé".data] l with
      | some r => some r
      | none => matchSeqWs ["vous".data, "avez".data, "demande".data] l
  match afterAlt with
  | some r =>
    let r2 := match r with
      | c :: cs => if leadSep c then cs else r
      | [] => r
    trimChars (r2.dropWhile wsChar)
  | none => trimChars l

/-- The `^question\s*[:,\-–—]?\s*` lead-in strip (then `trim`). -/
def leadInB (l : List Char) : List Char :=
  if ciPrefix "question".data l then
    let r := (l.drop 8).dropWhile wsChar
    let r2 := match r with
      | c :: cs => if leadSep c then cs else r
      | [] => r
    trimChars (r2.dropWhile wsChar)
  else trimChars l

/-- The `^"[^"]+"\s*` leading-quote strip (then `trim`). -/
def leadInC (l : List Char) : List Char :=
  match l with
  | '"' :: rest =>
    (match splitAtSub ['"'] rest with
     | some (inner, after) =>
       if inner.isEmpty then trimChars l else trimChars (after.dropWhile wsChar)
     | none => trimChars l)
  | _ => trimChars l

/-- `stripEcho` (lines 699-712). The source builds its first pattern from
the plain strings `'^\n?s*'` and `'\\s*[-:–—]*\n?s*'`, in which `\n` is a
newline and the unescaped `\s` collapses to a literal `s`; the effective
regex is therefore: optional newline, a run of `s`, the escaped question
(case-insensitively), `\s*`, a run of `[-:–—]`, optional newline, a run of
`s`, all anchored at the start. Nothing at all happens when the trimmed
question is shorter than 4 characters (the early `return`). Each of the
four replacements is followed by `trim`. -/
def stripEcho (userMessage : String) (t : String) : String :=
  let q := trimChars userMessage.data
  if q.length < 4 then t
  else
    let ql := lowerL q
    let l := t.data
    let matched :=
      match l with
      | '\n' :: r0 =>
        (match findSrunMatch ql r0 (sCount r0) with
         | some rr => some rr
         | none => findSrunMatch ql l (sCount l))
      | _ => findSrunMatch ql l (sCount l)
    let t1 := match matched with
      | some r => trimChars (echoTail r)
      | none => trimChars l
    ⟨leadInC (leadInB (leadInA t1))⟩

/-- The uncertainty regex (line 714):
`(i\s+don't\s+(have|know)|not\s+mentioned|no\s+information|no\s+data`
`|not\s+sure|je\s+ne\s+sais\s+pas|pas\s+d['’]information)`. -/
def unknownRe : List (List Tok) :=
  [[tL "i", tW1, tL "don't", tW1, .altT [[.lit "have"], [.lit "know"]]],
   [tL "not", tW1, tL "mentioned"],
   [tL "no", tW1, tL "information"],
   [tL "no", tW1, tL "data"],
   [tL "not", tW1, tL "sure"],
   [tL "je", tW1, tL "ne", tW1, tL "sais", tW1, tL "pas"],
   [tL "pas", tW1, tL "d", .b (.cls1 "'’"), tL "information"]]

/-- The uncertainty-tail step (lines 713-721): if the text matches the
uncertainty pattern and does not already contain the help-further tail,
strip trailing sentence punctuation, terminate the sentence and append the
localized tail (with the user's name when known). -/
def applyUnknownTail (userName : String) (isFr : Bool) (t : String) : String :=
  if reTest unknownRe (lowerStr t) then
    let nm := if userName = "" then "" else ", " ++ userName
    if !strHasSub "how can i help further?" (lowerStr t) &&
        !strHasSub "comment puis-je vous aider" (lowerStr t) then
      ensureSentenceEnds ⟨(t.data.reverse.dropWhile sentPunct).reverse⟩ ++
        (if isFr then " Comment puis-je vous aider autrement" ++ nm ++ " ?"
         else " How can I help further" ++ nm ++ "?")
    else t
  else t

/-- `https?:\/\/\S+` (global, case-insensitive) removal: `http`, a greedy
optional `s`, `://`, then at least one non-whitespace character. -/
def removeUrls : Nat → List Char → List Char
  | 0, l => l
  | _, [] => []
  | fuel + 1, c :: rest =>
    let tryUrl :=
      if ciPrefix "http".data (c :: rest) then
        let r := (c :: rest).drop 4
        let afterScheme :=
          match r with
          | c2 :: rr =>
            if lowerCh c2 = 's' then
              if ciPrefix "://".data rr then some (rr.drop 3)
              else if ciPrefix "://".data r then some (r.drop 3) else none
            else if ciPrefix "://".data r then some (r.drop 3) else none
          | [] => none
        match afterScheme with
        | some after =>
          if headWs after || after.isEmpty then none
          else some (after.dropWhile (fun c => !wsChar c))
        | none => none
      else none
    match tryUrl with
    | some after => removeUrls fuel after
    | none => c :: removeUrls fuel rest

/-- The URL-strip / whitespace-collapse step (line 723). -/
def stripUrlsCollapse (t : String) : String :=
  ⟨trimChars (collapseWs (removeUrls t.data.length t.data))⟩

/-- The whole response sanitization pipeline applied to raw generated text
(`index.js` lines 662-725, in source order): `cleanOutput`, `sanitizeMeta`,
`stripEcho`, the uncertainty tail, URL removal with whitespace collapse,
and the final sentence-termination safeguard. -/
def sanitizePipeline (userMessage userName : String) (isFr : Bool) (raw : String) : String :=
  let t := cleanOutput raw
  let t := sanitizeMeta t
  let t := stripEcho userMessage t
  let t := applyUnknownTail userName isFr t
  let t := stripUrlsCollapse t
  ensureSentenceEnds t

/-! ## The handler's direct-answer branches (`index.js` lines 310-741) -/

/-- Stable descending insertion by content length (the stable JavaScript
`sort((a, b) => (b.content.length || 0) - (a.content.length || 0))`). -/
def insDescLen (x : Doc) : List Doc → List Doc
  | [] => [x]
  | y :: ys =>
    if x.content.length < y.content.length then y :: insDescLen x ys
    else x :: y :: ys

/-- Stable descending sort by content length. -/
def sortDescLen (l : List Doc) : List Doc := l.foldr insDescLen []

/-- The AboutQuery answer (lines 409-434): prefer a config document titled
exactly `About` or `Summary` (case-insensitively), else the longest config
document with a first-person bio cue; answer with its first 2-3 sentences,
markdown-stripped, reduced to 2 sentences beyond 600 characters,
sentence-terminated. `none` means the branch falls through to RAG. -/
def aboutAnswer (cfg : List Doc) : Option String :=
  let aboutDoc :=
    match cfg.find? (fun d => lowerStr d.title = "about" || lowerStr d.title = "summary") with
    | some d => some d
    | none => (sortDescLen (cfg.filter (fun d => reTest bioCueRe (lowerStr d.content)))).head?
  match aboutDoc with
  | some d =>
    if d.content = "" then none
    else
      let sents := (splitSentsL d.content.data).filter (fun s => !s.isEmpty)
      let summary := stripMarkdown ⟨joinSep [' '] (sents.take 3)⟩
      let summary :=
        if summary.length > 600 then stripMarkdown ⟨joinSep [' '] (sents.take 2)⟩ else summary
      some (ensureSentenceEnds summary)
  | none => none

/-- Anchored test `/^\s*certification\s*:/i` on a title (line 443). -/
def certColonTest (title : String) : Bool :=
  let l := (lowerL title.data).dropWhile wsChar
  "certification".data.isPrefixOf l &&
    (match (l.drop 13).dropWhile wsChar with
     | ':' :: _ => true
     | _ => false)

/-- The capture of `/^[Cc]ertification\s*:\s*(.+)$/` on the raw title
(line 446): case-sensitive except the first letter, no leading whitespace,
the capture crossing no newline (a single trailing newline is allowed by
`$`). The JavaScript capture may begin with backtracked whitespace that the
subsequent `trim` removes; this model pre-drops that whitespace, which
yields the same trimmed name. -/
def certTitleExtract (title : String) : Option String :=
  match title.data with
  | c :: rest =>
    if (c = 'C' || c = 'c') && "ertification".data.isPrefixOf rest then
      match (rest.drop 12).dropWhile wsChar with
      | ':' :: r2 =>
        let r3 := r2.dropWhile wsChar
        let core := if r3.getLast? = some '\n' then r3.dropLast else r3
        if core ≠ [] && !core.contains '\n' then some ⟨core⟩ else none
      | _ => none
    else none
  | [] => none

/-- The fallback strip `title.replace(/^\s*certification\s*:\s*/i, '')`
(line 447). -/
def stripCertColonWs (t : String) : String :=
  let l1 := t.data.dropWhile wsChar
  if ciPrefix "certification".data l1 then
    match (l1.drop 13).dropWhile wsChar with
    | ':' :: l3 => ⟨l3.dropWhile wsChar⟩
    | _ => t
  else t

/-- The AICertQuery answer (lines 438-465): collect names of config
documents whose title is a certification header and whose title or content
mentions an AI term; deduplicated bullet list, `none` (fall through) when
empty. -/
def aiCertsAnswer (cfg : List Doc) : Option String :=
  let aiCerts := cfg.foldl (fun acc d =>
    if certColonTest d.title &&
        reTest aiTermRe (lowerStr (d.title ++ " " ++ d.content)) then
      let name :=
        match certTitleExtract d.title with
        | some n => jsTrim n
        | none => jsTrim (stripCertColonWs d.title)
      if name ≠ "" && !acc.contains name then acc ++ [name] else acc
    else acc) []
  if aiCerts.isEmpty then none
  else some ⟨joinSep ['\n'] (aiCerts.map (fun c => ("- " ++ c).data))⟩

/-- The strip `title.replace(/^Certification:\s*/i, '')` of the plain
certification branch (line 474): the colon must directly follow. -/
def stripCertColonDirect (t : String) : String :=
  if ciPrefix "certification:".data t.data then ⟨(t.data.drop 14).dropWhile wsChar⟩
  else t

/-- Order-preserving first-seen deduplication (`[...new Set(xs)]`). -/
def dedupStrGo (seen : List String) : List String → List String
  | [] => []
  | s :: rest =>
    if s ∈ seen then dedupStrGo seen rest else s :: dedupStrGo (s :: seen) rest

/-- The CertQuery answer (lines 469-489): titles of config documents
starting (case-insensitively) with `certification`, header stripped,
deduplicated bullet list; `none` (fall through) when empty. -/
def certsAnswer (cfg : List Doc) : Option String :=
  let certs := cfg.foldl (fun acc d =>
    if d.title ≠ "" && "certification".data.isPrefixOf (lowerL d.title.data) then
      let name := jsTrim (stripCertColonDirect d.title)
      if name ≠ "" then acc ++ [name] else acc
    else acc) []
  let uniq := dedupStrGo [] certs
  if uniq.isEmpty then none
  else some ⟨joinSep ['\n'] (uniq.map (fun c => ("- " ++ c).data))⟩

/-- The TeachingQuery answer (lines 508-526): longest config document
matching the teaching pattern in title or content; up to 3 teaching
sentences (or the first 3), markdown-stripped, capped, terminated; `none`
(fall through) when no document matched or its content is empty. -/
def teachingAnswer (cfg : List Doc) : Option String :=
  let hits := cfg.filter (fun d => teachingText d.title || teachingText d.content)
  match (sortDescLen hits).head? with
  | some d =>
    if d.content = "" then none
    else
      let sents := (splitSentsL d.content.data).filter (fun s => !s.isEmpty)
      let matched := (sents.filter (fun s => teachingText ⟨s⟩)).take 3
      let summary0 := if matched.isEmpty then joinSep [' '] (sents.take 3)
        else joinSep [' '] matched
      let summary := stripMarkdown ⟨summary0⟩
      let summary :=
        if summary.length > 600 then stripMarkdown ⟨joinSep [' '] (sents.take 2)⟩ else summary
      some (ensureSentenceEnds summary)
  | none => none

/-- `/^skills$/i` or `\bskills?\b` on a title (line 532). -/
def skillsTitleRe : List (List Tok) := [[tWB, tL "skill", .b (.clsOpt "s"), tWB]]

/-- Insert each name into the ordered set unless present. -/
def addSkillNames (acc : List String) (names : List (List Char)) : List String :=
  names.foldl (fun a n => if (⟨n⟩ : String) ∈ a then a else a ++ [⟨n⟩]) acc

/-- The SkillsQuery reply (lines 530-557, always answered): collect skill
names from config documents with a skills title, supporting pipe-delimited
category lists (`Category: a, b | Other: c`) and flat comma lists; cap at
50 bullet items; a fixed localized message when empty. -/
def skillsReply (cfg : List Doc) (isFr : Bool) : String :=
  let skillDocs := cfg.filter (fun d =>
    lowerStr d.title = "skills" || reTest skillsTitleRe (lowerStr d.title))
  let items := skillDocs.foldl (fun acc d =>
    let text := trimChars d.content.data
    if text.isEmpty then acc
    else if text.contains '|' then
      let parts := ((splitOnCh '|' text).map trimChars).filter (fun p => !p.isEmpty)
      parts.foldl (fun acc2 p =>
        let m := splitOnCh ':' p
        let body := match m with
          | [] => p
          | [_] => p
          | _ :: rest => joinSep [':'] rest
        addSkillNames acc2
          (((splitOnCh ',' body).map trimChars).filter (fun s => !s.isEmpty))) acc
    else
      addSkillNames acc
        (((splitOnCh ',' text).map trimChars).filter (fun s => !s.isEmpty))) []
  let list := joinSep ['\n'] ((items.take 50).map (fun s => ("- " ++ s).data))
  if list ≠ [] then ⟨list⟩
  else if isFr then "Aucune compétence trouvée dans la configuration."
  else "No skills found in configuration."

/-- `cleanStarOutput` of the AIProjectQuery branch (lines 602-607): drop
fenced blocks, strip a leading `Response:` tag, trim, collapse whitespace,
trim. -/
def cleanStarOutput (text : String) : String :=
  let t := removeFenced [] text.data.length text.data
  let t2 :=
    if ciPrefix "response:".data (t.dropWhile wsChar) then
      ((t.dropWhile wsChar).drop 9).dropWhile wsChar
    else t
  ⟨trimChars (collapseWs (trimChars t2))⟩

/-! ## Prompt templates (`index.js` lines 214-268); their content only feeds
   the generation capability, which the model takes as an oracle. -/

/-- `STAR_PROMPT_PROJECTS(selectedInfo, isFrench)` (lines 214-235). -/
def starPrompt (selectedInfo : String) (isFr : Bool) : String :=
  let langPrompt := if isFr then
      "Réponds en français. Utilise les termes Situation, Tâche, Action, Résultat."
    else "Respond in English. Use the terms Situation, Task, Action, Result."
  "You are Sensei, a professional smart portfolio assistant representing Ousseini's work.\n" ++
  "  Using ONLY the information below, prepare 2-3 concise STAR-formatted examples about AI, Machine Learning, or Cloud projects.\n\n" ++
  "  Information:\n  " ++ selectedInfo ++ "\n\n" ++
  "  Guidelines:\n" ++
  "  - Provide 2-3 examples MAXIMUM.\n" ++
  "  - Each example MUST include: **Situation, Task, Action, Result** (labeled clearly).\n" ++
  "  - Keep each example to **3-4 short, punchy sentences** total.\n" ++
  "  - Be specific and concrete using ONLY the provided information.\n" ++
  "  - NO URLs, NO assumptions.\n" ++
  "  - Focus strictly on AI/ML/Cloud projects/experience.\n" ++
  "  - Start each example on a new line.\n" ++
  "  - **" ++ langPrompt ++ "**\n" ++
  "  - Avoid redundancy and verbose language.\n\n" ++
  "  Response:"

/-- `MAIN_RESPONSE_PROMPT(context, userMessage, userName, isFrench)`
(lines 238-268). -/
def mainPrompt (context userMessage userName : String) (isFr : Bool) : String :=
  let namePhrase := if userName = "" then "" else ", " ++ userName
  let langPrompt := if isFr then
      "Réponds en français. Adresse l'utilisateur par son nom si pertinent: \"" ++ userName ++ "\"."
    else "Respond in English. Address the user by name if appropriate: \"" ++ userName ++ "\"."
  let fallback := if isFr then
      "Je n'ai pas cette information précise" ++ namePhrase ++ ". Comment puis-je vous aider autrement ?"
    else "I don't have that specific information" ++ namePhrase ++ ". How can I help further?"
  let contact := if isFr then
      "Pour les tarifs, la disponibilité ou une collaboration, veuillez visiter la section contact sur https://ousseinioumarou.com/#contact pour prendre directement contact."
    else "For pricing, availability, or collaboration inquiries, please visit the contact section at https://ousseinioumarou.com/#contact to reach out directly."
  "You are Sensei, an AI assistant for Ousseini's professional portfolio website.\n" ++
  "  Your primary goal is to provide accurate, specific, and concise answers using ONLY the 'Retrieved Information' below.\n\n" ++
  "  CRITICAL IDENTITY RULES:\n" ++
  "  - YOU are Sensei (the AI assistant).\n" ++
  "  - Ousseini is the portfolio owner (he/him/his).\n" ++
  "  - Never confuse the two.\n\n" ++
  "  Retrieved Information:\n  " ++ context ++ "\n\n" ++
  "  User Question: " ++ userMessage ++ "\n\n" ++
  "  Response Guidelines:\n" ++
  "  - **Be accurate and specific:** ONLY use the information provided in 'Retrieved Information'.\n" ++
  "  - **No echo:** Do NOT repeat or paraphrase the user's question. Do not start with phrases like \"You asked...\". Start directly with the answer.\n" ++
  "  - **Stay on-topic:** Do not mention Ousseini's experiences, projects, or skills unless the user explicitly asks about them. Avoid unsolicited summaries or self-promotion.\n" ++
  "  - **Concision:** Keep the response under 200 words and strictly answer the user's request.\n" ++
  "  - **No self-evaluation:** Do NOT append meta questions or reflective checks like \"Is this response accurate and concise?\" or anything asking the user to validate guideline compliance.\n" ++
  "  - **Fall-back:** If information is truly missing, say: \"" ++ fallback ++ "\"\n" ++
  "  - **Tone:** Maintain a friendly, professional, and confident tone.\n" ++
  "  - **" ++ langPrompt ++ "**\n" ++
  "  - **DO NOT** use STAR format (that is reserved for project questions).\n" ++
  "  - **For Contact/Pricing:** Redirect to: \"" ++ contact ++ "\"\n\n" ++
  "  Response:"

/-! ## The request handler (`exports.handler`, lines 310-741) -/

/-- Outcome of one handled chat request. `docsLoaded` records whether the
document-store load step (line 356) was reached; `genCalls` counts
invocations of the generation capability. -/
structure HandlerResult where
  statusCode : Nat
  message : String
  docsLoaded : Bool
  genCalls : Nat
deriving DecidableEq, Repr

/-- The fixed French disclaimer (lines 347 and 399). -/
def frenchDisclaimer : String :=
  "Bonjour ! Je peux répondre uniquement en anglais. Please ask your questions in English. Please tell me your name so I can personalize replies."

/-- The greeting reply (lines 365-386). -/
def greetingReply (userName : String) (isFr : Bool) : String :=
  let askNameTail :=
    if userName = "" then " Please tell me your name so I can personalize replies." else ""
  if isFr then
    (if userName = "" then "Bonjour !" else "Bonjour " ++ userName ++ " !") ++
      " Je peux répondre uniquement en anglais. Please ask your questions in English." ++
      askNameTail
  else
    (if userName = "" then "Hello!" else "Hello " ++ userName ++ "!") ++
      " I'm Sensei, Ousseini's portfolio assistant. How can I assist you today?" ++
      askNameTail

/-- The fixed contact redirect (line 495), the one reply that carries a
URL. -/
def contactReply : String :=
  "For pricing, availability, collaboration or direct contact please use the website contact page: https://ousseinioumarou.com/#contact"

/-- The AI-project fallback (lines 568-570). -/
def noAIProjectInfo (isFr : Bool) (userName : String) : String :=
  let nm := if userName = "" then "" else ", " ++ userName
  if isFr then
    "Je n'ai pas d'information spécifique sur les projets d'IA" ++ nm ++
      ". Comment puis-je vous aider autrement ?"
  else
    "I don't have specific AI project information" ++ nm ++ ". How can I help further?"

/-- The canonical no-context fallback (lines 627-629). -/
def noInfoFallback (isFr : Bool) (userName : String) : String :=
  let nm := if userName = "" then "" else ", " ++ userName
  if isFr then
    "Je n'ai pas cette information précise" ++ nm ++ ". Comment puis-je vous aider autrement ?"
  else
    "I don't have that specific information" ++ nm ++ ". How can I help further?"

/-- The config-sourced documents (line 357): `source` equals `config.js`
case-insensitively. -/
def configOnly (docs : List Doc) : List Doc :=
  docs.filter (fun d => lowerStr d.source = "config.js")

/-- AboutQuery with its guard (lines 408-434): `none` means not
intercepted. -/
def tryAbout (msg : String) (cfg : List Doc) : Option String :=
  if wantsAbout msg then aboutAnswer cfg else none

/-- AICertQuery with its guard (lines 437-465). -/
def tryAICerts (msg : String) (cfg : List Doc) : Option String :=
  if wantsAICerts msg then aiCertsAnswer cfg else none

/-- CertQuery with its guard (lines 468-489). -/
def tryCerts (msg : String) (cfg : List Doc) : Option String :=
  if wantsCerts msg then certsAnswer cfg else none

/-- TeachingQuery with its guard (lines 506-526). -/
def tryTeaching (msg : String) (cfg : List Doc) : Option String :=
  if wantsTeaching msg then teachingAnswer cfg else none

/-- The chat-request handler (`exports.handler`, `index.js` lines 310-741),
for a POST chat request whose body parsed to `msg` and the already
name-filtered `name` (the GET `/status` route, the JSON envelope and the
S3/Bedrock transports are outside the modelled engine). `docs` stands for
the loaded document set, `topics` for the configured `ragTriggerTopics`,
and `gen` is the generation capability as an oracle from the prompt to the
extracted raw text (extraction failure is the already-substituted
`Sorry, I could not generate a response.` text). The branch order is the
source order; each branch that the source leaves with `return` produces a
result here. -/
def handler (gen : String → String) (docs : List Doc) (topics : List String)
    (msg name : String) : HandlerResult :=
  if msg = "" then ⟨400, "Missing message", false, 0⟩
  else
    let isFr := detectLanguage msg = "fr"
    if isFr then ⟨200, frenchDisclaimer, false, 0⟩
    else
      let cfg := configOnly docs
      if isGreeting msg then ⟨200, greetingReply name isFr, true, 0⟩
      else if wantsAgentName msg then ⟨200, "Sensei", true, 0⟩
      else if isFr then ⟨200, frenchDisclaimer, true, 0⟩
      else
        match tryAbout msg cfg with
        | some m => ⟨200, m, true, 0⟩
        | none =>
          match tryAICerts msg cfg with
          | some m => ⟨200, m, true, 0⟩
          | none =>
            match tryCerts msg cfg with
            | some m => ⟨200, m, true, 0⟩
            | none =>
              if wantsContact msg then ⟨200, contactReply, true, 0⟩
              else
                match tryTeaching msg cfg with
                | some m => ⟨200, m, true, 0⟩
                | none =>
                  if wantsSkills msg then ⟨200, skillsReply cfg isFr, true, 0⟩
                  else if wantsAIProjects msg then
                    let docsFor := if shouldUseRag msg topics then docs else cfg
                    let ctx := (getRelevantContext msg docsFor).context
                    if jsTrim ctx = "" then ⟨200, noAIProjectInfo isFr name, true, 0⟩
                    else ⟨200, cleanStarOutput (gen (starPrompt ctx isFr)), true, 1⟩
                  else
                    let docsFor := if shouldUseRag msg topics then docs else cfg
                    let ctx := (getRelevantContext msg docsFor).context
                    if jsTrim ctx = "" then ⟨200, noInfoFallback isFr name, true, 0⟩
                    else
                      ⟨200, sanitizePipeline msg name isFr (gen (mainPrompt ctx msg name false)),
                        true, 1⟩

theorem dedupGo_countP (k : String) :
    ∀ (docs : List Doc) (seen : List String),
      (dedupGo seen docs).countP (fun d => dedupKey d = k) =
        if k ∈ seen then 0
        else if docs.any (fun d => dedupKey d = k) then 1 else 0 := by
  intro docs
  induction docs with
  | nil => intro seen; simp [dedupGo]
  | cons d rest ih =>
    intro seen
    by_cases hseen : dedupKey d ∈ seen
    · rw [dedupGo, if_pos hseen, ih]
      by_cases hk : k ∈ seen
      · simp [hk]
      · have hne : ¬ dedupKey d = k := fun h => hk (h ▸ hseen)
        simp [hk, List.any_cons, hne]
    · rw [dedupGo, if_neg hseen]
      by_cases hd : dedupKey d = k
      · have hk : ¬ k ∈ seen := fun h => hseen (hd ▸ h)
        rw [List.countP_cons]
        rw [ih (dedupKey d :: seen)]
        simp [hd, hk, List.any_cons]
      · rw [List.countP_cons, ih (dedupKey d :: seen)]
        by_cases hk : k ∈ seen
        · simp [hk, hd, List.mem_cons]
        · have hks : ¬ k = dedupKey d := fun h => hd h.symm
          have : ¬ k ∈ dedupKey d :: seen := by
            simp [List.mem_cons, hk, hks]
          simp [this, hk, hd, List.any_cons]

theorem dedupGo_find? (k : String) :
    ∀ (docs : List Doc) (seen : List String), k ∉ seen →
      (dedupGo seen docs).find? (fun d => dedupKey d = k) =
        docs.find? (fun d => dedupKey d = k) := by
  intro docs
  induction docs with
  | nil => intro seen _; simp [dedupGo]
  | cons d rest ih =>
    intro seen hk
    by_cases hseen : dedupKey d ∈ seen
    · have hd : ¬ dedupKey d = k := fun h => hk (h ▸ hseen)
      rw [dedupGo, if_pos hseen, ih seen hk, List.find?]
      simp [hd]
    · rw [dedupGo, if_neg hseen]
      by_cases hd : dedupKey d = k
      · simp [List.find?, hd]
      · have hks : ¬ k = dedupKey d := fun h => hd h.symm
        have hk2 : k ∉ dedupKey d :: seen := by
          simp [List.mem_cons, hk, hks]
        rw [List.find?, List.find?]
        simp only [hd, decide_eq_false]
        exact ih _ hk2

/-! ## Claims about the scorer and the loader -/

/-- Length of a string built from an explicit character list. -/
theorem strLen_mk (l : List Char) : (⟨l⟩ : String).length = l.length := rfl

theorem truncLen (c : List Char) :
    (if c.length > 1500 then c.take 1500 else c).length ≤ 1500 := by
  split
  · rw [List.length_take]
    exact min_le_left _ _
  · omega

/-- C8. For every query and document set, the context string returned by the
lexical scorer is at most 1500 characters long: the final assembly
hard-truncates with `slice(0, 1500)`, and the greeting sentinel is 101
characters. -/
theorem context_length_le_1500 (q : String) (docs : List Doc) :
    (getRelevantContext q docs).context.length ≤ 1500 := by
  unfold getRelevantContext
  by_cases h : greetingTrigger q
  · simp only [h, if_true]
    decide
  · simp only [h, if_false, Bool.false_eq_true]
    exact le_trans (le_of_eq (strLen_mk _)) (truncLen _)

/-- C7 counterexample. The claim "`sources` is exactly the filtered list of
`source` fields, never substituting a title" is false: the code computes
`top.map(d => d.source || d.title).filter(Boolean)`, so a selected document
with an empty `source` contributes its `title`. On this input the scorer
returns `["Tdoc"]`, while the claimed value is `[]`. -/
theorem sources_not_only_source_fields :
    (getRelevantContext "zz" [⟨"Tdoc", "hello zz", ""⟩]).sources ≠
      ((selTop "zz" [⟨"Tdoc", "hello zz", ""⟩]).map Doc.source).filter
        (fun s => s ≠ "") := by
  decide

/-- C7 amended. For every query and document list, `sources` is the ordered
list over the selected top documents of: the document's `source`, or its
`title` when `source` is empty — with empty entries filtered out. -/
theorem getRelevantContext_sources (q : String) (docs : List Doc) :
    (getRelevantContext q docs).sources =
      ((selTop q docs).map (fun d => if d.source = "" then d.title else d.source)).filter
        (fun s => s ≠ "") := by
  unfold getRelevantContext
  by_cases h : greetingTrigger q
  · simp [h, selTop]
  · simp [h]

/-- C5 counterexample. The claim that only messages consisting solely of a
greeting phrase are short-circuited is false: a message that merely starts
with `"hello "` but carries a real question is still answered with the
greeting sentinel and empty sources, although its trimmed, lowered form
equals no greeting phrase. -/
theorem greeting_shortcircuit_on_prefixed_message :
    getRelevantContext "hello tell me about certifications" [⟨"t", "c about certifications", "s"⟩] =
        ⟨greetingSentinel, []⟩ ∧
      greetings.all
        (fun g => jsTrim (lowerStr "hello tell me about certifications") ≠ g) := by
  decide

/-- C5 amended. The scorer short-circuits with the greeting sentinel and
empty sources whenever the trimmed, lowered message equals a greeting
phrase, starts with one followed by a space, or ends with a space followed
by one — in particular also for messages with further content around the
greeting. -/
theorem greetingTrigger_shortcircuits (msg : String) (docs : List Doc)
    (h : greetingTrigger msg = true) :
    getRelevantContext msg docs = ⟨greetingSentinel, []⟩ := by
  unfold getRelevantContext
  simp [h]

theorem greetingTrigger_shortcircuits_witness :
    greetingTrigger "hello there" = true ∧
      getRelevantContext "hello there" [⟨"t", "c", "s"⟩] = ⟨greetingSentinel, []⟩ :=
  ⟨by decide, greetingTrigger_shortcircuits "hello there" [⟨"t", "c", "s"⟩] (by decide)⟩

/-- C6 counterexample. The claim that a teaching-related query with best
score below 1.5 (3 half-points) makes the scorer replace the top set by
teaching-matching documents is false of `simple-rag.js`: on this input the
query matches the teaching pattern, the best score is 1 (2 half-points,
below the threshold), yet the selected set still contains the document `A`,
which matches the teaching pattern in neither title nor content. -/
theorem no_teaching_fallback_in_scorer :
    teachingText "do you mentor students" = true ∧
      bestScore "do you mentor students"
          [⟨"A", "skill project stuff", "a"⟩, ⟨"B", "mentor", "b"⟩] < 3 ∧
      ⟨"A", "skill project stuff", "a"⟩ ∈ selTop "do you mentor students"
          [⟨"A", "skill project stuff", "a"⟩, ⟨"B", "mentor", "b"⟩] ∧
      (teachingText "A" || teachingText "skill project stuff") = false := by
  refine ⟨by decide, by decide, by decide, by decide⟩

/-- C6 amended. The scorer has no teaching-specific fallback; its only
fallback fires when no document scored positively and the message contains
`certif`, and then every selected document's lowered content contains
`certif`. (The teaching preference described by the spec lives in the
handler's TeachingQuery branch, not in the scorer.) -/
theorem selTop_certif_fallback (q : String) (docs : List Doc)
    (hempty : scoredTop q docs = [])
    (hcert : hasSub "certif".data (trimChars (lowerL q.data)) = true) :
    ∀ d ∈ selTop q docs, hasSub "certif".data (lowerL d.content.data) = true := by
  intro d hd
  unfold selTop at hd
  by_cases hg : greetingTrigger q
  · simp [hg] at hd
  · simp only [hg, if_false, Bool.false_eq_true, hempty, List.isEmpty_nil, hcert,
      Bool.and_self, if_true] at hd
    have hd2 := List.take_subset 3 _ hd
    exact (List.mem_filter.mp hd2).2

theorem selTop_certif_fallback_witness :
    scoredTop "what certifications do you have" [⟨"t", "acertifb", "s"⟩] = [] ∧
      ∀ d ∈ selTop "what certifications do you have" [⟨"t", "acertifb", "s"⟩],
        hasSub "certif".data (lowerL d.content.data) = true :=
  ⟨by decide, selTop_certif_fallback _ _ (by decide) (by decide)⟩

/-- C9. If two collected documents agree on trimmed title and on the first
40 characters of content, then among all documents sharing that
deduplication key exactly one survives `dedupDocs`, and it is the first
occurrence in collection order. -/
theorem dedup_first_occurrence_wins (docs : List Doc) (d1 d2 : Doc)
    (h1 : d1 ∈ docs) (h2 : d2 ∈ docs)
    (htitle : jsTrim d1.title = jsTrim d2.title)
    (hcontent : d1.content.data.take 40 = d2.content.data.take 40) :
    (dedupDocs docs).countP (fun d => dedupKey d = dedupKey d1) = 1 ∧
      (dedupDocs docs).find? (fun d => dedupKey d = dedupKey d1) =
        docs.find? (fun d => dedupKey d = dedupKey d1) := by
  constructor
  · rw [dedupDocs, dedupGo_countP]
    have hany : docs.any (fun d => dedupKey d = dedupKey d1) = true := by
      rw [List.any_eq_true]
      exact ⟨d1, h1, by simp⟩
    simp [hany]
  · exact dedupGo_find? _ docs [] (by simp)

/-! ## Trim and sentence-termination lemmas (for C1) -/

theorem dropWhile_head_false (p : Char → Bool) (l : List Char) :
    ∀ c cs, l.dropWhile p = c :: cs → p c = false := by
  induction l with
  | nil => intro c cs h; simp [List.dropWhile] at h
  | cons a rest ih =>
    intro c cs h
    rw [List.dropWhile_cons] at h
    by_cases ha : p a
    · rw [if_pos ha] at h
      exact ih c cs h
    · rw [if_neg ha] at h
      cases h
      simpa using ha

theorem dropWhile_eq_self (p : Char → Bool) (l : List Char)
    (h : ∀ c cs, l = c :: cs → p c = false) : l.dropWhile p = l := by
  cases l with
  | nil => rfl
  | cons a rest => rw [List.dropWhile_cons, if_neg (by simp [h a rest rfl])]

theorem trimChars_noLead (l : List Char) :
    ∀ c cs, trimChars l = c :: cs → wsChar c = false := by
  intro c cs h
  unfold trimChars at h
  have hsfx : ((l.dropWhile wsChar).reverse.dropWhile wsChar) <:+
      (l.dropWhile wsChar).reverse := List.dropWhile_suffix wsChar
  have hpre : ((l.dropWhile wsChar).reverse.dropWhile wsChar).reverse <+:
      (l.dropWhile wsChar) :=
    List.reverse_suffix.mp (by simpa using hsfx)
  obtain ⟨t, ht⟩ := hpre
  rw [h] at ht
  exact dropWhile_head_false wsChar l c (cs ++ t) (by rw [← ht]; simp)

theorem trimChars_noTrail (l : List Char) :
    ∀ c cs, (trimChars l).reverse = c :: cs → wsChar c = false := by
  intro c cs h
  unfold trimChars at h
  rw [List.reverse_reverse] at h
  exact dropWhile_head_false wsChar (l.dropWhile wsChar).reverse c cs h

theorem trimChars_idem (l : List Char) : trimChars (trimChars l) = trimChars l := by
  have h1 : (trimChars l).dropWhile wsChar = trimChars l :=
    dropWhile_eq_self wsChar _ (trimChars_noLead l)
  have h2 : (trimChars l).reverse.dropWhile wsChar = (trimChars l).reverse :=
    dropWhile_eq_self wsChar _ (fun c cs h => trimChars_noTrail l c cs h)
  show ((((trimChars l).dropWhile wsChar).reverse.dropWhile wsChar)).reverse = trimChars l
  rw [h1, h2, List.reverse_reverse]

theorem trimChars_append_dot (l : List Char) :
    trimChars (trimChars l ++ ['.']) = trimChars l ++ ['.'] := by
  have h1 : (trimChars l ++ ['.']).dropWhile wsChar = trimChars l ++ ['.'] := by
    apply dropWhile_eq_self
    intro c cs h
    cases hT : trimChars l with
    | nil =>
      rw [hT] at h
      simp only [List.nil_append, List.cons.injEq] at h
      rw [← h.1]; decide
    | cons a rest =>
      rw [hT] at h
      simp only [List.cons_append, List.cons.injEq] at h
      rw [← h.1]
      exact trimChars_noLead l a rest hT
  have h2 : (trimChars l ++ ['.']).reverse.dropWhile wsChar =
      (trimChars l ++ ['.']).reverse := by
    apply dropWhile_eq_self
    intro c cs h
    rw [List.reverse_append] at h
    simp only [List.reverse_cons, List.reverse_nil, List.nil_append,
      List.cons_append, List.cons.injEq] at h
    rw [← h.1]; decide
  show (((trimChars l ++ ['.']).dropWhile wsChar).reverse.dropWhile wsChar).reverse =
    trimChars l ++ ['.']
  rw [h1, h2, List.reverse_reverse]

theorem mk_ne_empty_of_ne_nil (l : List Char) (h : l ≠ []) : (⟨l⟩ : String) ≠ "" := by
  intro he
  exact h (congrArg String.data he)

theorem ensureSE_cases (text : String) (h0 : text ≠ "") :
    ensureSentenceEnds text = ⟨trimChars text.data⟩ ∧
        (∃ c, (trimChars text.data).getLast? = some c ∧ sentPunct c = true) ∨
      ensureSentenceEnds text = ⟨trimChars text.data ++ ['.']⟩ := by
  rw [ensureSentenceEnds, if_neg h0]
  cases hlast : (trimChars text.data).getLast? with
  | some c =>
    by_cases hp : sentPunct c = true
    · exact Or.inl ⟨by simp [hlast, hp], c, rfl, hp⟩
    · exact Or.inr (by simp [hlast, hp])
  | none => exact Or.inr (by simp [hlast])

theorem ensureSE_fix (u : String) (hne : u ≠ "")
    (htrim : trimChars u.data = u.data)
    (hpunct : ∃ c, u.data.getLast? = some c ∧ sentPunct c = true) :
    ensureSentenceEnds u = u := by
  obtain ⟨c, hc, hp⟩ := hpunct
  rw [ensureSentenceEnds, if_neg hne]
  simp only [htrim, hc, hp, if_true]

/-- C1 amended, part of the pipeline that is idempotent: the final
sentence-termination step (steps 4 and 9 of the sanitizer) is idempotent on
every string. -/
theorem ensureSentenceEnds_idem (text : String) :
    ensureSentenceEnds (ensureSentenceEnds text) = ensureSentenceEnds text := by
  by_cases h0 : text = ""
  · simp [h0, ensureSentenceEnds]
  · rcases ensureSE_cases text h0 with ⟨hu, c, hc, hp⟩ | hu
    · rw [hu]
      apply ensureSE_fix
      · exact mk_ne_empty_of_ne_nil _ (by intro he; rw [he] at hc; simp at hc)
      · exact trimChars_idem _
      · exact ⟨c, hc, hp⟩
    · rw [hu]
      apply ensureSE_fix
      · exact mk_ne_empty_of_ne_nil _ (by simp)
      · exact trimChars_append_dot _
      · exact ⟨'.', List.getLast?_concat _, by decide⟩

/-- C1 counterexample. The full sanitization pipeline is not idempotent:
with user name `Bob` and an uncertainty text, the first application appends
the tail `How can I help further, Bob?`, which the tail-presence check
(`/how can i help further\?/i`, with no room for the name before the `?`)
fails to recognise on the second application, so the tail is appended
again. -/
theorem sanitize_not_idempotent :
    sanitizePipeline "zzzz" "Bob" false
        (sanitizePipeline "zzzz" "Bob" false "I don't have data.") ≠
      sanitizePipeline "zzzz" "Bob" false "I don't have data." := by
  decide

/-! ## Claims about the handler (C2, C3, C4, C10) -/

/-- Shared helper: with the greeting check failed and the agent-name check
passed, the handler answers `Sensei` directly. -/
theorem handler_sensei (gen : String → String) (docs : List Doc)
    (topics : List String) (msg name : String)
    (hne : msg ≠ "") (hfr : detectLanguage msg ≠ "fr")
    (hgr : isGreeting msg = false) (han : wantsAgentName msg = true) :
    handler gen docs topics msg name = ⟨200, "Sensei", true, 0⟩ := by
  simp [handler, hne, hfr, hgr, han]

/-- C3 counterexample. The claim that AgentNameQuery is checked before
Greeting is false: this message asks for the assistant's name (the
agent-name pattern matches), also matches a greeting token and contains no
question word — and the handler answers with the greeting template, not
with `Sensei`. -/
theorem greeting_checked_before_agent_name :
    wantsAgentName "hello name of the agent" = true ∧
      isGreeting "hello name of the agent" = true ∧
      (handler (fun _ => "") [] [] "hello name of the agent" "").message ≠ "Sensei" := by
  refine ⟨by decide, by decide, by decide⟩

/-- C3 amended. Exactly one intent is selected per request in the fixed
source order with first match winning, but Greeting precedes
AgentNameQuery: a message that matches the agent-name pattern receives the
fixed literal answer `Sensei` only when the greeting check fails (in
particular whenever it contains a question word). -/
theorem agent_name_after_greeting (gen : String → String) (docs : List Doc)
    (topics : List String) (msg name : String)
    (hne : msg ≠ "") (hfr : detectLanguage msg ≠ "fr")
    (hgr : isGreeting msg = false) (han : wantsAgentName msg = true) :
    (handler gen docs topics msg name).message = "Sensei" := by
  rw [handler_sensei gen docs topics msg name hne hfr hgr han]

theorem agent_name_after_greeting_witness :
    ("What is your name?" : String) ≠ "" ∧
      detectLanguage "What is your name?" ≠ "fr" ∧
      isGreeting "What is your name?" = false ∧
      wantsAgentName "What is your name?" = true ∧
      (handler (fun _ => "") [] [] "What is your name?" "").message = "Sensei" :=
  ⟨by decide, by decide, by decide, by decide,
   agent_name_after_greeting (fun _ => "") [] [] "What is your name?" ""
     (by decide) (by decide) (by decide) (by decide)⟩

/-- C4. Routing `What is your name?` answers the literal `Sensei` for every
document set, generation oracle, topic list and user name; in particular
two runs over different document sets agree. -/
theorem name_query_independent_of_docs (gen : String → String)
    (docs1 docs2 : List Doc) (topics : List String) (name : String) :
    (handler gen docs1 topics "What is your name?" name).message = "Sensei" ∧
      (handler gen docs1 topics "What is your name?" name).message =
        (handler gen docs2 topics "What is your name?" name).message := by
  have h : ∀ docs : List Doc,
      handler gen docs topics "What is your name?" name = ⟨200, "Sensei", true, 0⟩ :=
    fun docs => handler_sensei gen docs topics "What is your name?" name
      (by decide) (by decide) (by decide) (by decide)
  rw [h docs1, h docs2]
  exact ⟨rfl, rfl⟩

/-- C10. A message detected as French short-circuits with the fixed
bilingual disclaimer, status 200, before the document-store load step
(`docsLoaded = false`) and without invoking generation (`genCalls = 0`);
the result does not depend on the document set. -/
theorem french_disclaimer_shortcircuit (gen : String → String) (docs : List Doc)
    (topics : List String) (msg name : String)
    (hne : msg ≠ "") (hfr : detectLanguage msg = "fr") :
    handler gen docs topics msg name = ⟨200, frenchDisclaimer, false, 0⟩ := by
  simp [handler, hne, hfr]

theorem french_disclaimer_shortcircuit_witness :
    ("bonjour" : String) ≠ "" ∧ detectLanguage "bonjour" = "fr" ∧
      handler (fun _ => "") [⟨"t", "c", "s"⟩] [] "bonjour" "Bob" =
        ⟨200, frenchDisclaimer, false, 0⟩ :=
  ⟨by decide, by decide,
   french_disclaimer_shortcircuit (fun _ => "") [⟨"t", "c", "s"⟩] [] "bonjour" "Bob"
     (by decide) (by decide)⟩

/-- C2. When no earlier intent intercepts the message (the always-answering
guards are false and the conditional branches fall through) and the scorer
returns an empty or whitespace-only context for the selected document set —
in particular for the empty set — the handler returns the canonical
`I don't have that specific information` fallback with status 200 and never
invokes the generation capability. -/
theorem no_context_fallback (gen : String → String) (docs : List Doc)
    (topics : List String) (msg name : String)
    (hne : msg ≠ "") (hfr : detectLanguage msg ≠ "fr")
    (hgr : isGreeting msg = false) (han : wantsAgentName msg = false)
    (hab : tryAbout msg (configOnly docs) = none)
    (hai : tryAICerts msg (configOnly docs) = none)
    (hce : tryCerts msg (configOnly docs) = none)
    (hco : wantsContact msg = false)
    (hte : tryTeaching msg (configOnly docs) = none)
    (hsk : wantsSkills msg = false)
    (hap : wantsAIProjects msg = false)
    (hctx : jsTrim (getRelevantContext msg
        (if shouldUseRag msg topics then docs else configOnly docs)).context = "") :
    handler gen docs topics msg name = ⟨200, noInfoFallback false name, true, 0⟩ := by
  simp [handler, hne, hfr, hgr, han, hab, hai, hce, hco, hte, hsk, hap, hctx]

theorem no_context_fallback_witness :
    (handler (fun _ => "") [] [] "zzz" "" =
        ⟨200, noInfoFallback false "", true, 0⟩) ∧
      noInfoFallback false "" =
        "I don't have that specific information. How can I help further?" :=
  ⟨no_context_fallback (fun _ => "") [] [] "zzz" ""
     (by decide) (by decide) (by decide) (by decide) (by decide) (by decide)
     (by decide) (by decide) (by decide) (by decide) (by decide) (by decide),
   by decide⟩

theorem dedup_first_occurrence_wins_witness :
    (dedupDocs [(⟨" T ", "0123456789012345678901234567890123456789A", "a"⟩ : Doc),
        ⟨"T", "0123456789012345678901234567890123456789B", "b"⟩]).countP
      (fun d => dedupKey d =
        dedupKey ⟨" T ", "0123456789012345678901234567890123456789A", "a"⟩) = 1 :=
  (dedup_first_occurrence_wins
    [⟨" T ", "0123456789012345678901234567890123456789A", "a"⟩,
     ⟨"T", "0123456789012345678901234567890123456789B", "b"⟩]
    ⟨" T ", "0123456789012345678901234567890123456789A", "a"⟩
    ⟨"T", "0123456789012345678901234567890123456789B", "b"⟩
    (by decide) (by decide) (by decide) (by decide)).1

end Chatbot
